import Mathlib

set_option linter.unusedVariables false

/-!
# Lithos coordination engine — shallow embedding

A shallow embedding of `src/lithos/coordination.py` (class `CoordinationService`)
over an explicit store.  The SQLite tables `tasks`, `claims` and `findings` are
modelled as lists of rows; SQL `SELECT ... fetchone` becomes `List.find?`,
`UPDATE ... WHERE` becomes `List.map` guarded by the WHERE predicate,
`DELETE ... WHERE` becomes `List.filter` with the negated predicate, and
`INSERT` appends a row.  Timestamps are integer minutes (`Int`), matching the
code's use of `datetime` plus `timedelta(minutes=ttl_minutes)`; `ttl_minutes`
is a Python `int` and is therefore also `Int`.  The `agents` table is touched
only by `ensure_agent_known`, which no modelled operation reads back, so it is
omitted from the store; JSON columns (`tags`, `metadata`) are likewise unused
by the modelled operations and omitted.
-/

namespace Lithos

/-- A row of the `claims` table: `UNIQUE(task_id, aspect)`, `expires_at NOT NULL`. -/
structure ClaimRow where
  task_id : String
  agent : String
  aspect : String
  claimed_at : Int
  expires_at : Int
deriving DecidableEq, Repr

/-- A row of the `tasks` table (`tags` JSON omitted, unused by the modelled operations). -/
structure TaskRow where
  id : String
  title : String
  description : Option String
  status : String
  created_by : String
  created_at : Int
deriving DecidableEq, Repr

/-- A row of the `findings` table. -/
structure FindingRow where
  id : String
  task_id : String
  agent : String
  summary : String
  knowledge_id : Option String
  created_at : Int
deriving DecidableEq, Repr

/-- The coordination database: tables `tasks`, `claims`, `findings`. -/
structure Store where
  tasks : List TaskRow
  claims : List ClaimRow
  findings : List FindingRow
deriving DecidableEq, Repr

/-- `CoordinationConfig` from `src/lithos/config.py` (defaults 60 / 480 minutes). -/
structure CoordinationConfig where
  claim_default_ttl_minutes : Int := 60
  claim_max_ttl_minutes : Int := 480
deriving DecidableEq, Repr

/-- The WHERE predicate `task_id = ? AND aspect = ?` used on the claims table. -/
def claimKey (task_id aspect : String) (c : ClaimRow) : Bool :=
  decide (c.task_id = task_id ∧ c.aspect = aspect)

/-- `claim_task(task_id, aspect, agent, ttl_minutes)`.

Mirrors `CoordinationService.claim_task`: clamp the TTL with
`min(ttl_minutes, claim_max_ttl_minutes)`, compute `expires_at = now + ttl`;
fail if the task is absent or not `open`; then branch on the existing row for
`(task_id, aspect)`: live row of the same agent → update `expires_at`
(returning success); live row of another agent → `(False, None)` with no
write; expired row → overwrite `agent`, `expires_at`, `claimed_at`; no row →
insert a new one.  (The Python `except IntegrityError` branch of the insert is
unreachable in this sequential model, since the insert only runs when no row
with the key exists.)  `ensure_agent_known` writes only the agents table and
is omitted. -/
def claim_task (cfg : CoordinationConfig) (s : Store) (now : Int)
    (task_id aspect agent : String) (ttl_minutes : Int) :
    (Bool × Option Int) × Store :=
  match s.tasks.find? (fun t => decide (t.id = task_id)) with
  | none => ((false, none), s)
  | some task =>
    if task.status ≠ "open" then ((false, none), s)
    else
      match s.claims.find? (claimKey task_id aspect) with
      | some existing =>
        if existing.expires_at > now then
          if existing.agent = agent then
            ((true, some (now + min ttl_minutes cfg.claim_max_ttl_minutes)),
              { s with claims := s.claims.map (fun c =>
                  if claimKey task_id aspect c then
                    { c with expires_at := now + min ttl_minutes cfg.claim_max_ttl_minutes }
                  else c) })
          else
            ((false, none), s)
        else
          ((true, some (now + min ttl_minutes cfg.claim_max_ttl_minutes)),
            { s with claims := s.claims.map (fun c =>
                if claimKey task_id aspect c then
                  { c with agent := agent,
                           expires_at := now + min ttl_minutes cfg.claim_max_ttl_minutes,
                           claimed_at := now }
                else c) })
      | none =>
        ((true, some (now + min ttl_minutes cfg.claim_max_ttl_minutes)),
          { s with claims := s.claims ++
              [{ task_id := task_id, agent := agent, aspect := aspect,
                 claimed_at := now,
                 expires_at := now + min ttl_minutes cfg.claim_max_ttl_minutes }] })

/-- `renew_claim(task_id, aspect, agent, ttl_minutes)`: clamp the TTL; look up a
row with `task_id = ? AND aspect = ? AND expires_at > ?`; fail if none or if
its holder differs from the caller; otherwise update `expires_at` for the key. -/
def renew_claim (cfg : CoordinationConfig) (s : Store) (now : Int)
    (task_id aspect agent : String) (ttl_minutes : Int) :
    (Bool × Option Int) × Store :=
  match s.claims.find? (fun c =>
      decide (c.task_id = task_id ∧ c.aspect = aspect ∧ c.expires_at > now)) with
  | none => ((false, none), s)
  | some row =>
    if row.agent ≠ agent then ((false, none), s)
    else
      ((true, some (now + min ttl_minutes cfg.claim_max_ttl_minutes)),
        { s with claims := s.claims.map (fun c =>
            if claimKey task_id aspect c then
              { c with expires_at := now + min ttl_minutes cfg.claim_max_ttl_minutes }
            else c) })

/-- The WHERE predicate `task_id = ? AND aspect = ? AND agent = ?` of `release_claim`. -/
def releaseMatch (task_id aspect agent : String) (c : ClaimRow) : Bool :=
  decide (c.task_id = task_id ∧ c.aspect = aspect ∧ c.agent = agent)

/-- `release_claim(task_id, aspect, agent)`: one
`DELETE FROM claims WHERE task_id = ? AND aspect = ? AND agent = ?`; the result
is `rowcount > 0`.  Note the code never reads the clock here: expiry is not
consulted. -/
def release_claim (s : Store) (task_id aspect agent : String) : Bool × Store :=
  (s.claims.any (releaseMatch task_id aspect agent),
   { s with claims := s.claims.filter (fun c => !(releaseMatch task_id aspect agent c)) })

/-- `complete_task(task_id, agent)`:
`UPDATE tasks SET status = 'completed' WHERE id = ? AND status = 'open'`; if
`rowcount == 0` return `False` (nothing was changed and nothing is committed);
otherwise delete every claim row of the task and return `True`. -/
def complete_task (s : Store) (task_id agent : String) : Bool × Store :=
  if s.tasks.any (fun t => decide (t.id = task_id ∧ t.status = "open")) then
    (true,
     { s with
        tasks := s.tasks.map (fun t =>
          if decide (t.id = task_id ∧ t.status = "open") then { t with status := "completed" }
          else t),
        claims := s.claims.filter (fun c => !(decide (c.task_id = task_id))) })
  else (false, s)

/-- One element of the `get_task_status` result. -/
structure TaskStatus where
  id : String
  title : String
  status : String
  claims : List ClaimRow
deriving DecidableEq, Repr

/-- `get_task_status(task_id=None)`: Python's `if task_id:` is falsy both for
`None` and for the empty string, in which case all tasks with
`status = 'open'` are selected; otherwise the tasks with `id = task_id`.  Each
selected task is paired with its live claims
(`WHERE task_id = ? AND expires_at > ?` against the single `now` sampled at
entry). -/
def get_task_status (s : Store) (now : Int) (task_id : Option String) :
    List TaskStatus :=
  let selected : List TaskRow :=
    match task_id with
    | some tid =>
      if tid = "" then s.tasks.filter (fun t => decide (t.status = "open"))
      else s.tasks.filter (fun t => decide (t.id = tid))
    | none => s.tasks.filter (fun t => decide (t.status = "open"))
  selected.map (fun t =>
    { id := t.id, title := t.title, status := t.status,
      claims := s.claims.filter (fun c => decide (c.task_id = t.id ∧ c.expires_at > now)) })

/-- The `since` filter of `list_findings`: the source appends
`AND created_at > ?` — a strict comparison — when `since` is given
(`if since:` is always truthy for a datetime), and no constraint otherwise. -/
def sinceFilter (since : Option Int) (created_at : Int) : Bool :=
  match since with
  | some t => decide (created_at > t)
  | none => true

/-- Comparison by `created_at`, the sort key of `ORDER BY created_at ASC`. -/
def createdLE (a b : FindingRow) : Prop :=
  a.created_at ≤ b.created_at

instance : DecidableRel createdLE :=
  fun a b => inferInstanceAs (Decidable (a.created_at ≤ b.created_at))

instance : IsTotal FindingRow createdLE :=
  ⟨fun a b => Int.le_total a.created_at b.created_at⟩

instance : IsTrans FindingRow createdLE :=
  ⟨fun _ _ _ h₁ h₂ => le_trans h₁ h₂⟩

/-- `list_findings(task_id, since=None)`:
`SELECT * FROM findings WHERE task_id = ? [AND created_at > ?] ORDER BY created_at ASC`. -/
def list_findings (s : Store) (task_id : String) (since : Option Int) :
    List FindingRow :=
  List.insertionSort createdLE
    (s.findings.filter (fun f =>
      decide (f.task_id = task_id) && sinceFilter since f.created_at))

/-- Two claim rows collide on the `UNIQUE(task_id, aspect)` key. -/
def sameKey (a b : ClaimRow) : Prop :=
  a.task_id = b.task_id ∧ a.aspect = b.aspect

instance : DecidableRel sameKey :=
  fun a b => inferInstanceAs (Decidable (_ ∧ _))

/-- The schema invariant enforced by `UNIQUE(task_id, aspect)`: no two rows of
the claims table share a key. -/
def KeyUnique (cs : List ClaimRow) : Prop :=
  cs.Pairwise (fun a b => ¬ sameKey a b)

/-- The schema invariant enforced by `id TEXT PRIMARY KEY` on `tasks`. -/
def TasksUnique (ts : List TaskRow) : Prop :=
  ts.Pairwise (fun a b => a.id ≠ b.id)

/-- At a given instant, no two live claim rows (rows with `expires_at > now`)
share a `(task_id, aspect)` key. -/
def LiveAtMostOne (cs : List ClaimRow) (now : Int) : Prop :=
  (cs.filter (fun c => decide (c.expires_at > now))).Pairwise (fun a b => ¬ sameKey a b)

instance (cs : List ClaimRow) : Decidable (KeyUnique cs) :=
  inferInstanceAs (Decidable (cs.Pairwise (fun a b => ¬ sameKey a b)))

instance (ts : List TaskRow) : Decidable (TasksUnique ts) :=
  inferInstanceAs (Decidable (ts.Pairwise (fun a b : TaskRow => a.id ≠ b.id)))

instance (cs : List ClaimRow) (now : Int) : Decidable (LiveAtMostOne cs now) :=
  inferInstanceAs
    (Decidable ((cs.filter (fun c : ClaimRow => decide (c.expires_at > now))).Pairwise
      (fun a b => ¬ sameKey a b)))

/-! ## Concrete fixtures for witnesses and counterexamples -/

/-- The default configuration: TTL ceiling 480 minutes. -/
def cfg0 : CoordinationConfig := {}

def taskOpen : TaskRow :=
  { id := "t1", title := "Task", description := none, status := "open",
    created_by := "A", created_at := 0 }

/-- A claim on `(t1, research)` by agent `A`, live until minute 100. -/
def claimLive : ClaimRow :=
  { task_id := "t1", agent := "A", aspect := "research", claimed_at := 0, expires_at := 100 }

/-- A claim on `(t1, research)` by agent `A`, expired after minute 10. -/
def claimExpired : ClaimRow :=
  { task_id := "t1", agent := "A", aspect := "research", claimed_at := 0, expires_at := 10 }

def findingAt5 : FindingRow :=
  { id := "f1", task_id := "t1", agent := "A", summary := "s", knowledge_id := none,
    created_at := 5 }

def storeLive : Store := { tasks := [taskOpen], claims := [claimLive], findings := [] }

def storeExpired : Store := { tasks := [taskOpen], claims := [claimExpired], findings := [] }

def storeNoClaims : Store := { tasks := [taskOpen], claims := [], findings := [] }

def storeFindings : Store := { tasks := [taskOpen], claims := [], findings := [findingAt5] }

/-! ## Helper lemmas -/

/-- `List.find?` returns the element when it is the unique one satisfying the
predicate. -/
theorem find?_eq_some_of_unique {α : Type} {l : List α} {c : α} {p : α → Bool}
    (hm : c ∈ l) (hc : p c = true) (huniq : ∀ a ∈ l, p a = true → a = c) :
    l.find? p = some c := by
  induction l with
  | nil => cases hm
  | cons a t ih =>
    by_cases hpa : p a = true
    · have ha : a = c := huniq a (List.mem_cons_self a t) hpa
      subst ha
      exact List.find?_cons_of_pos t hpa
    · rcases List.mem_cons.mp hm with rfl | hmt
      · exact absurd hc hpa
      · rw [List.find?_cons_of_neg t hpa]
        exact ih hmt fun x hx hpx => huniq x (List.mem_cons_of_mem a hx) hpx

theorem sameKey_not_symm : Symmetric (fun a b : ClaimRow => ¬ sameKey a b) :=
  fun _ _ h hk => h ⟨hk.1.symm, hk.2.symm⟩

/-- Under the `UNIQUE(task_id, aspect)` invariant, two rows of the claims table
with the same key are the same row. -/
theorem eq_of_mem_keyUnique {cs : List ClaimRow} (hu : KeyUnique cs)
    {a c : ClaimRow} (ha : a ∈ cs) (hc : c ∈ cs) (hk : sameKey a c) : a = c := by
  by_contra hne
  exact List.Pairwise.forall sameKey_not_symm hu ha hc hne hk

/-- Under `KeyUnique`, the `find?` on a claim key returns exactly the member
row with that key. -/
theorem find_claim_of_mem {cs : List ClaimRow} {c : ClaimRow} {tid asp : String}
    (hu : KeyUnique cs) (hm : c ∈ cs) (h1 : c.task_id = tid) (h2 : c.aspect = asp) :
    cs.find? (claimKey tid asp) = some c := by
  apply find?_eq_some_of_unique hm
  · simp [claimKey, h1, h2]
  · intro a ha hpa
    have hk : a.task_id = tid ∧ a.aspect = asp := by simpa [claimKey] using hpa
    exact eq_of_mem_keyUnique hu ha hm ⟨hk.1.trans h1.symm, hk.2.trans h2.symm⟩

/-- Under `KeyUnique`, the `find?` of `renew_claim` (key plus liveness) returns
exactly the member live row with that key. -/
theorem find_live_claim_of_mem {cs : List ClaimRow} {c : ClaimRow} {tid asp : String}
    {now : Int} (hu : KeyUnique cs) (hm : c ∈ cs) (h1 : c.task_id = tid)
    (h2 : c.aspect = asp) (hl : c.expires_at > now) :
    cs.find? (fun x => decide (x.task_id = tid ∧ x.aspect = asp ∧ x.expires_at > now)) =
      some c := by
  apply find?_eq_some_of_unique hm
  · simp [h1, h2, hl]
  · intro a ha hpa
    simp only [decide_eq_true_eq] at hpa
    exact eq_of_mem_keyUnique hu ha hm ⟨hpa.1.trans h1.symm, hpa.2.1.trans h2.symm⟩

/-- Under the `tasks` primary-key invariant, the `find?` on a task id returns
exactly the member row with that id. -/
theorem find_task_of_mem {ts : List TaskRow} {t : TaskRow} {tid : String}
    (hu : TasksUnique ts) (hm : t ∈ ts) (h : t.id = tid) :
    ts.find? (fun x => decide (x.id = tid)) = some t := by
  apply find?_eq_some_of_unique hm
  · simp [h]
  · intro a ha hpa
    simp only [decide_eq_true_eq] at hpa
    by_contra hne
    have hsym : Symmetric (fun x y : TaskRow => x.id ≠ y.id) :=
      fun x y hxy e => hxy e.symm
    exact List.Pairwise.forall hsym hu ha hm hne (hpa.trans h.symm)

/-- A map that does not touch `task_id` or `aspect` preserves key uniqueness. -/
theorem keyUnique_map {cs : List ClaimRow} (hu : KeyUnique cs) (f : ClaimRow → ClaimRow)
    (hf : ∀ c, (f c).task_id = c.task_id ∧ (f c).aspect = c.aspect) :
    KeyUnique (cs.map f) := by
  apply List.Pairwise.map f _ hu
  intro a b hab hk
  exact hab ⟨((hf a).1.symm.trans hk.1).trans (hf b).1,
             ((hf a).2.symm.trans hk.2).trans (hf b).2⟩

/-- Key uniqueness of the whole table gives at-most-one-live-row per key at
every instant. -/
theorem liveAtMostOne_of_keyUnique {cs : List ClaimRow} (hu : KeyUnique cs) (now : Int) :
    LiveAtMostOne cs now :=
  List.Pairwise.sublist (List.filter_sublist _) hu

/-- `claim_task` never breaks the `UNIQUE(task_id, aspect)` invariant: renewals
and overwrites keep the key fields, and the insert branch runs only when no row
with the key exists. -/
theorem keyUnique_claim_task (cfg : CoordinationConfig) (s : Store) (now : Int)
    (tid asp agent : String) (ttl : Int) (hu : KeyUnique s.claims) :
    KeyUnique ((claim_task cfg s now tid asp agent ttl).2.claims) := by
  unfold claim_task
  split
  · exact hu
  · split
    · exact hu
    · split
      · split
        · split
          · exact keyUnique_map hu _ fun c => by
              by_cases h : claimKey tid asp c = true <;> simp [h]
          · exact hu
        · exact keyUnique_map hu _ fun c => by
            by_cases h : claimKey tid asp c = true <;> simp [h]
      · rename_i hnone
        unfold KeyUnique
        rw [List.pairwise_append]
        refine ⟨hu, by simp, ?_⟩
        intro a ha b hb
        simp only [List.mem_singleton] at hb
        subst hb
        intro hk
        exact List.find?_eq_none.mp hnone a ha (by
          simp only [claimKey, decide_eq_true_eq]
          exact ⟨hk.1, hk.2⟩)

/-- `renew_claim` preserves the key-uniqueness invariant. -/
theorem keyUnique_renew_claim (cfg : CoordinationConfig) (s : Store) (now : Int)
    (tid asp agent : String) (ttl : Int) (hu : KeyUnique s.claims) :
    KeyUnique ((renew_claim cfg s now tid asp agent ttl).2.claims) := by
  unfold renew_claim
  split
  · exact hu
  · split
    · exact hu
    · exact keyUnique_map hu _ fun c => by
        by_cases h : claimKey tid asp c = true <;> simp [h]

/-- `release_claim` preserves the key-uniqueness invariant (it only deletes). -/
theorem keyUnique_release_claim (s : Store) (tid asp agent : String)
    (hu : KeyUnique s.claims) :
    KeyUnique ((release_claim s tid asp agent).2.claims) :=
  List.Pairwise.sublist (List.filter_sublist _) hu

/-- `complete_task` preserves the key-uniqueness invariant (it only deletes). -/
theorem keyUnique_complete_task (s : Store) (tid agent : String)
    (hu : KeyUnique s.claims) :
    KeyUnique ((complete_task s tid agent).2.claims) := by
  unfold complete_task
  split
  · exact List.Pairwise.sublist (List.filter_sublist _) hu
  · exact hu

/-- C1.  Mutual-exclusion invariant: in any store satisfying the schema's
`UNIQUE(task_id, aspect)` constraint, at any instant at most one live claim
row (one with `expires_at > now`) exists per `(task_id, aspect)` key, and
every operation (`claim_task`, `renew_claim`, `release_claim`,
`complete_task`) preserves the constraint — hence preserves the at-most-one-
live-row property at every instant. -/
theorem claims_mutual_exclusion_invariant (cfg : CoordinationConfig) (s : Store)
    (now : Int) (tid asp agent : String) (ttl : Int) (hu : KeyUnique s.claims) :
    (∀ t', LiveAtMostOne s.claims t')
    ∧ (KeyUnique ((claim_task cfg s now tid asp agent ttl).2.claims)
        ∧ ∀ t', LiveAtMostOne ((claim_task cfg s now tid asp agent ttl).2.claims) t')
    ∧ (KeyUnique ((renew_claim cfg s now tid asp agent ttl).2.claims)
        ∧ ∀ t', LiveAtMostOne ((renew_claim cfg s now tid asp agent ttl).2.claims) t')
    ∧ (KeyUnique ((release_claim s tid asp agent).2.claims)
        ∧ ∀ t', LiveAtMostOne ((release_claim s tid asp agent).2.claims) t')
    ∧ (KeyUnique ((complete_task s tid agent).2.claims)
        ∧ ∀ t', LiveAtMostOne ((complete_task s tid agent).2.claims) t') :=
  ⟨fun t' => liveAtMostOne_of_keyUnique hu t',
   ⟨keyUnique_claim_task cfg s now tid asp agent ttl hu,
    fun t' => liveAtMostOne_of_keyUnique (keyUnique_claim_task cfg s now tid asp agent ttl hu) t'⟩,
   ⟨keyUnique_renew_claim cfg s now tid asp agent ttl hu,
    fun t' => liveAtMostOne_of_keyUnique (keyUnique_renew_claim cfg s now tid asp agent ttl hu) t'⟩,
   ⟨keyUnique_release_claim s tid asp agent hu,
    fun t' => liveAtMostOne_of_keyUnique (keyUnique_release_claim s tid asp agent hu) t'⟩,
   ⟨keyUnique_complete_task s tid agent hu,
    fun t' => liveAtMostOne_of_keyUnique (keyUnique_complete_task s tid agent hu) t'⟩⟩

/-- C1 witness: the invariant theorem applied to a concrete one-claim store and
a concrete `claim_task` call by a second agent. -/
theorem claims_mutual_exclusion_invariant_witness :
    KeyUnique ((claim_task cfg0 storeLive 0 "t1" "research" "B" 60).2.claims)
    ∧ LiveAtMostOne ((claim_task cfg0 storeLive 0 "t1" "research" "B" 60).2.claims) 0 :=
  ⟨(claims_mutual_exclusion_invariant cfg0 storeLive 0 "t1" "research" "B" 60 (by decide)).2.1.1,
   (claims_mutual_exclusion_invariant cfg0 storeLive 0 "t1" "research" "B" 60 (by decide)).2.1.2 0⟩

/-- C2.  If a live claim on `(task_id, aspect)` is held by agent `X`, then
`claim_task` for that key by any agent `Y ≠ X` returns `(False, None)` — a
plain boolean denial — and the whole store, the claims table included, is
returned unchanged. -/
theorem claim_conflict_denied (cfg : CoordinationConfig) (s : Store) (now : Int)
    (tid asp agentX agentY : String) (ttl : Int) (hu : KeyUnique s.claims)
    (c : ClaimRow) (hc : c ∈ s.claims) (h1 : c.task_id = tid) (h2 : c.aspect = asp)
    (hagent : c.agent = agentX) (hlive : c.expires_at > now) (hne : agentY ≠ agentX) :
    claim_task cfg s now tid asp agentY ttl = ((false, none), s) := by
  unfold claim_task
  rw [find_claim_of_mem hu hc h1 h2]
  split
  · rfl
  · split
    · rfl
    · split
      · rename_i existing heq
        injection heq with heq
        subst heq
        rw [if_pos hlive, if_neg (fun e : c.agent = agentY => hne (e.symm.trans hagent))]
      · rename_i heq
        exact Option.noConfusion heq

/-- C2 witness: agent `B` is denied on the concrete store where `A` holds
`(t1, research)` live at minute 0. -/
theorem claim_conflict_denied_witness :
    claim_task cfg0 storeLive 0 "t1" "research" "B" 60 = ((false, none), storeLive) :=
  claim_conflict_denied cfg0 storeLive 0 "t1" "research" "A" "B" 60 (by decide)
    claimLive (by decide) rfl rfl rfl (by decide) (by decide)

/-- C3 counterexample: agent `A` holds `(t1, research)` live until minute 100;
re-claiming it at minute 0 with `ttl_minutes = 1` succeeds but returns
`expires_at = 1 < 100` — the code sets `expires_at = now + ttl` unconditionally,
so a re-claim can move the expiry backwards, refuting `expires_at ≥ prior`. -/
theorem reclaim_shrinks_expiry_counterexample :
    (claim_task cfg0 storeLive 0 "t1" "research" "A" 1).1 = (true, some 1)
    ∧ claimLive.expires_at = 100 ∧ (0 : Int) < 100 ∧ (1 : Int) < 100 := by
  decide

/-- C3 (amended).  The same agent re-claiming its own live aspect of an open
task always succeeds, and the resulting `expires_at` is `now + clamped ttl` —
which is not necessarily ≥ the prior `expires_at`. -/
theorem reclaim_own_live_succeeds (cfg : CoordinationConfig) (s : Store) (now : Int)
    (tid asp agent : String) (ttl : Int) (hu : KeyUnique s.claims)
    (htu : TasksUnique s.tasks) (t : TaskRow) (ht : t ∈ s.tasks) (hid : t.id = tid)
    (hopen : t.status = "open") (c : ClaimRow) (hc : c ∈ s.claims)
    (h1 : c.task_id = tid) (h2 : c.aspect = asp) (hagent : c.agent = agent)
    (hlive : c.expires_at > now) :
    (claim_task cfg s now tid asp agent ttl).1 =
      (true, some (now + min ttl cfg.claim_max_ttl_minutes)) := by
  unfold claim_task
  rw [find_task_of_mem htu ht hid, find_claim_of_mem hu hc h1 h2]
  split
  · rename_i heq
    exact Option.noConfusion heq
  · rename_i task heq
    injection heq with heq
    subst heq
    rw [if_neg (fun hh : t.status ≠ "open" => hh hopen)]
    split
    · rename_i existing heq2
      injection heq2 with heq2
      subst heq2
      rw [if_pos hlive, if_pos hagent]
    · rename_i heq2
      exact Option.noConfusion heq2

/-- C3 witness: the amended theorem applied to the concrete live-claim store. -/
theorem reclaim_own_live_succeeds_witness :
    (claim_task cfg0 storeLive 0 "t1" "research" "A" 60).1 =
      (true, some (0 + min 60 cfg0.claim_max_ttl_minutes)) :=
  reclaim_own_live_succeeds cfg0 storeLive 0 "t1" "research" "A" 60 (by decide)
    (by decide) taskOpen (by decide) rfl rfl claimLive (by decide) rfl rfl rfl
    (by decide)

/-- C5.  An expired row on `(task_id, aspect)` of an open task is overwritten
by any caller: the call succeeds with `expires_at = now + clamped ttl`, and the
store afterwards contains the row re-stamped with the caller's `agent`,
`claimed_at = now` and the new `expires_at`. -/
theorem claim_expired_overwrite (cfg : CoordinationConfig) (s : Store) (now : Int)
    (tid asp agent : String) (ttl : Int) (hu : KeyUnique s.claims)
    (htu : TasksUnique s.tasks) (t : TaskRow) (ht : t ∈ s.tasks) (hid : t.id = tid)
    (hopen : t.status = "open") (c : ClaimRow) (hc : c ∈ s.claims)
    (h1 : c.task_id = tid) (h2 : c.aspect = asp) (hexp : c.expires_at ≤ now) :
    (claim_task cfg s now tid asp agent ttl).1 =
      (true, some (now + min ttl cfg.claim_max_ttl_minutes))
    ∧ { c with agent := agent,
               expires_at := now + min ttl cfg.claim_max_ttl_minutes,
               claimed_at := now } ∈ (claim_task cfg s now tid asp agent ttl).2.claims := by
  have key : claim_task cfg s now tid asp agent ttl =
      ((true, some (now + min ttl cfg.claim_max_ttl_minutes)),
        { s with claims := s.claims.map (fun x =>
            if claimKey tid asp x then
              { x with agent := agent,
                       expires_at := now + min ttl cfg.claim_max_ttl_minutes,
                       claimed_at := now }
            else x) }) := by
    unfold claim_task
    rw [find_task_of_mem htu ht hid, find_claim_of_mem hu hc h1 h2]
    split
    · rename_i heq
      exact Option.noConfusion heq
    · rename_i task heq
      injection heq with heq
      subst heq
      rw [if_neg (fun hh : t.status ≠ "open" => hh hopen)]
      split
      · rename_i existing heq2
        injection heq2 with heq2
        subst heq2
        rw [if_neg (not_lt.mpr hexp)]
      · rename_i heq2
        exact Option.noConfusion heq2
  rw [key]
  refine ⟨rfl, ?_⟩
  have hkey : claimKey tid asp c = true := by
    simp [claimKey, h1, h2]
  have hmem := List.mem_map_of_mem (fun x =>
    if claimKey tid asp x then
      { x with agent := agent,
               expires_at := now + min ttl cfg.claim_max_ttl_minutes,
               claimed_at := now }
    else x) hc
  simpa [hkey] using hmem

/-- C5 witness: at minute 20 agent `B` overwrites `A`'s claim that expired at
minute 10. -/
theorem claim_expired_overwrite_witness :
    (claim_task cfg0 storeExpired 20 "t1" "research" "B" 60).1 =
      (true, some (20 + min 60 cfg0.claim_max_ttl_minutes))
    ∧ { claimExpired with agent := "B",
                          expires_at := 20 + min 60 cfg0.claim_max_ttl_minutes,
                          claimed_at := 20 } ∈
        (claim_task cfg0 storeExpired 20 "t1" "research" "B" 60).2.claims :=
  claim_expired_overwrite cfg0 storeExpired 20 "t1" "research" "B" 60 (by decide)
    (by decide) taskOpen (by decide) rfl rfl claimExpired (by decide) rfl rfl
    (by decide)

/-- C4 counterexample: the row on `(t1, research)` held by `A` expired at
minute 10, yet at any later instant (e.g. minute 20) `release_claim` by `A`
still returns `True` and deletes it — the DELETE of `release_claim` matches on
`task_id`, `aspect` and `agent` only and never consults the clock, refuting
"returns false for expired rows". -/
theorem release_expired_owned_counterexample :
    (release_claim storeExpired "t1" "research" "A").1 = true
    ∧ claimExpired.expires_at ≤ 20
    ∧ (release_claim storeExpired "t1" "research" "A").2.claims = [] := by
  decide

/-- C4 (amended).  `release_claim` returns `True` exactly when a row for
`(task_id, aspect)` whose `agent` equals the caller exists — regardless of
expiry; for absent or foreign-owned rows it returns `False` and leaves the
store unchanged, and the deleted rows are exactly the matching ones. -/
theorem release_claim_spec (s : Store) (tid asp agent : String) :
    ((release_claim s tid asp agent).1 = true ↔
      ∃ c ∈ s.claims, c.task_id = tid ∧ c.aspect = asp ∧ c.agent = agent)
    ∧ ((release_claim s tid asp agent).1 = false → (release_claim s tid asp agent).2 = s)
    ∧ (∀ c : ClaimRow, c ∈ (release_claim s tid asp agent).2.claims ↔
        c ∈ s.claims ∧ ¬(c.task_id = tid ∧ c.aspect = asp ∧ c.agent = agent)) := by
  refine ⟨?_, ?_, ?_⟩
  · show s.claims.any (releaseMatch tid asp agent) = true ↔ _
    rw [List.any_eq_true]
    simp [releaseMatch]
  · intro h
    have h' : ∀ c ∈ s.claims, ¬ releaseMatch tid asp agent c = true :=
      List.any_eq_false.mp h
    have hfil : s.claims.filter (fun c => !(releaseMatch tid asp agent c)) = s.claims :=
      List.filter_eq_self.mpr (fun a ha => by simp [h' a ha])
    show { s with claims := s.claims.filter (fun c => !(releaseMatch tid asp agent c)) } = s
    rw [hfil]
  · intro c
    show c ∈ s.claims.filter (fun c => !(releaseMatch tid asp agent c)) ↔ _
    rw [List.mem_filter]
    simp only [releaseMatch, Bool.not_eq_eq_eq_not, Bool.not_true,
      decide_eq_false_iff_not]

/-- C4 witness: releasing a foreign-owned row (`B` releasing `A`'s claim)
returns `False` and leaves the store unchanged. -/
theorem release_claim_spec_witness :
    (release_claim storeLive "t1" "research" "B").2 = storeLive :=
  (release_claim_spec storeLive "t1" "research" "B").2.1 (by decide)

/-- C6.  `complete_task` succeeds exactly when a task with the given id exists
with status exactly `open`; on success the task's status becomes `completed`,
`get_task_status` for that task read immediately afterwards reports an empty
claim list for every returned row, and a second `complete_task` on the same
task (by any agent) returns `False`.  A missing task also gives `False` (the
`exists` side of the iff fails). -/
theorem complete_task_spec (s : Store) (tid agent agent2 : String) (now : Int)
    (hne : tid ≠ "") (htu : TasksUnique s.tasks) :
    ((complete_task s tid agent).1 = true ↔
      ∃ t ∈ s.tasks, t.id = tid ∧ t.status = "open")
    ∧ ((complete_task s tid agent).1 = true →
        (∀ t ∈ (complete_task s tid agent).2.tasks, t.id = tid → t.status = "completed")
        ∧ (∀ ts ∈ get_task_status (complete_task s tid agent).2 now (some tid),
            ts.claims = [])
        ∧ (complete_task (complete_task s tid agent).2 tid agent2).1 = false) := by
  constructor
  · unfold complete_task
    split
    · rename_i h
      simpa using List.any_eq_true.mp h
    · rename_i h
      rw [List.any_eq_true] at h
      simp only [decide_eq_true_eq] at h
      constructor
      · intro hfalse
        exact absurd hfalse (by simp)
      · intro hex
        exact absurd (by simpa using hex) h
  · intro hs
    have hsucc : s.tasks.any (fun t => decide (t.id = tid ∧ t.status = "open")) = true := by
      by_contra hna
      unfold complete_task at hs
      rw [if_neg (by simpa using hna)] at hs
      exact Bool.noConfusion hs
    obtain ⟨t0, ht0, ht0p⟩ := List.any_eq_true.mp hsucc
    simp only [decide_eq_true_eq] at ht0p
    have hres : complete_task s tid agent =
        (true,
         { s with
            tasks := s.tasks.map (fun t =>
              if decide (t.id = tid ∧ t.status = "open") then { t with status := "completed" }
              else t),
            claims := s.claims.filter (fun c => !(decide (c.task_id = tid))) }) := by
      unfold complete_task
      rw [if_pos hsucc]
    refine ⟨?_, ?_, ?_⟩
    · intro t htm htid
      rw [hres] at htm
      simp only [List.mem_map] at htm
      obtain ⟨a, ham, rfl⟩ := htm
      by_cases hcond : a.id = tid ∧ a.status = "open"
      · simp [hcond]
      · rw [if_neg (by simpa using hcond)] at htid ⊢
        have : a = t0 := by
          by_contra hne2
          have hsym : Symmetric (fun x y : TaskRow => x.id ≠ y.id) :=
            fun x y hxy e => hxy e.symm
          exact List.Pairwise.forall hsym htu ham ht0 hne2 (htid.trans ht0p.1.symm)
        exact absurd ⟨htid, this ▸ ht0p.2⟩ hcond
    · intro ts hts
      rw [hres] at hts
      simp only [get_task_status, if_neg hne, List.mem_map, List.mem_filter,
        decide_eq_true_eq] at hts
      obtain ⟨t, ⟨htm, htid⟩, rfl⟩ := hts
      simp only []
      rw [List.filter_eq_nil_iff]
      intro c hcm
      rw [List.mem_filter] at hcm
      simp only [Bool.not_eq_eq_eq_not, Bool.not_true, decide_eq_false_iff_not] at hcm
      simp only [decide_eq_true_eq, not_and]
      intro hctid
      exact absurd (hctid.trans htid) hcm.2
    · rw [hres]
      unfold complete_task
      rw [if_neg]
      intro hany
      rw [List.any_eq_true] at hany
      obtain ⟨t, htm, htp⟩ := hany
      simp only [List.mem_map] at htm
      simp only [decide_eq_true_eq] at htp
      obtain ⟨a, ham, rfl⟩ := htm
      by_cases hcond : a.id = tid ∧ a.status = "open"
      · rw [if_pos (by simpa using hcond)] at htp
        exact absurd htp.2 (by simp)
      · rw [if_neg (by simpa using hcond)] at htp
        exact hcond htp

/-- C6 witness: completing the concrete task deletes its claim, a re-read
shows no claims, and a second completion fails. -/
theorem complete_task_spec_witness :
    (complete_task storeLive "t1" "A").1 = true
    ∧ (∀ ts ∈ get_task_status (complete_task storeLive "t1" "A").2 0 (some "t1"),
        ts.claims = [])
    ∧ (complete_task (complete_task storeLive "t1" "A").2 "t1" "B").1 = false := by
  have h := complete_task_spec storeLive "t1" "A" "B" 0 (by decide) (by decide)
  have hs : (complete_task storeLive "t1" "A").1 = true := by decide
  exact ⟨hs, (h.2 hs).2.1, (h.2 hs).2.2⟩

/-- C7.  A requested `ttl_minutes` above the configured ceiling is silently
clamped, not rejected: the call behaves exactly as if the ceiling had been
requested, and any granted `expires_at` (of `claim_task` or `renew_claim`,
clamped or not) never exceeds `now + claim_max_ttl_minutes`. -/
theorem ttl_clamped (cfg : CoordinationConfig) (s : Store) (now : Int)
    (tid asp agent : String) (ttl : Int) (h : cfg.claim_max_ttl_minutes < ttl) :
    claim_task cfg s now tid asp agent ttl =
      claim_task cfg s now tid asp agent cfg.claim_max_ttl_minutes
    ∧ renew_claim cfg s now tid asp agent ttl =
      renew_claim cfg s now tid asp agent cfg.claim_max_ttl_minutes
    ∧ (∀ e, (claim_task cfg s now tid asp agent ttl).1.2 = some e →
        e ≤ now + cfg.claim_max_ttl_minutes)
    ∧ (∀ e, (renew_claim cfg s now tid asp agent ttl).1.2 = some e →
        e ≤ now + cfg.claim_max_ttl_minutes) := by
  have hmin : min ttl cfg.claim_max_ttl_minutes = cfg.claim_max_ttl_minutes :=
    min_eq_right h.le
  refine ⟨?_, ?_, ?_, ?_⟩
  · simp only [claim_task, hmin, min_self]
  · simp only [renew_claim, hmin, min_self]
  · intro e he
    unfold claim_task at he
    split at he
    · exact Option.noConfusion he
    · split at he
      · exact Option.noConfusion he
      · split at he
        · split at he
          · split at he
            · injection he with he
              subst he
              exact add_le_add_left (min_le_right _ _) now
            · exact Option.noConfusion he
          · injection he with he
            subst he
            exact add_le_add_left (min_le_right _ _) now
        · injection he with he
          subst he
          exact add_le_add_left (min_le_right _ _) now
  · intro e he
    unfold renew_claim at he
    split at he
    · exact Option.noConfusion he
    · split at he
      · exact Option.noConfusion he
      · injection he with he
        subst he
        exact add_le_add_left (min_le_right _ _) now

/-- C7 witness: a request of 99999 minutes behaves as a request of the 480
minute ceiling. -/
theorem ttl_clamped_witness :
    claim_task cfg0 storeNoClaims 0 "t1" "research" "W" 99999 =
      claim_task cfg0 storeNoClaims 0 "t1" "research" "W" cfg0.claim_max_ttl_minutes :=
  (ttl_clamped cfg0 storeNoClaims 0 "t1" "research" "W" 99999 (by decide)).1

/-- C8 counterexample: the store holds a finding of task `t1` created at
minute 5, yet `list_findings` with `since = 5` omits it — the source filters
with the strict comparison `created_at > ?`, so `since` is an exclusive, not
inclusive, lower bound. -/
theorem since_inclusive_counterexample :
    list_findings storeFindings "t1" (some 5) = []
    ∧ findingAt5 ∈ storeFindings.findings
    ∧ findingAt5.task_id = "t1" ∧ findingAt5.created_at = 5 := by
  decide

/-- C8 (amended).  `list_findings` returns the findings of the task in
non-decreasing `created_at` order, and a finding is returned exactly when it
belongs to the task and passes the `since` filter, which keeps findings with
`created_at` strictly greater than `since` (an exclusive lower bound) and
everything when `since` is absent. -/
theorem list_findings_sorted_exclusive (s : Store) (tid : String)
    (since : Option Int) :
    List.Sorted createdLE (list_findings s tid since)
    ∧ ∀ f : FindingRow, f ∈ list_findings s tid since ↔
        f ∈ s.findings ∧ f.task_id = tid ∧ sinceFilter since f.created_at = true := by
  constructor
  · exact List.sorted_insertionSort createdLE _
  · intro f
    unfold list_findings
    rw [List.Perm.mem_iff (List.perm_insertionSort createdLE _)]
    rw [List.mem_filter]
    simp [and_assoc]

/-- C8 witness: with `since = 4` the minute-5 finding is returned. -/
theorem list_findings_sorted_exclusive_witness :
    findingAt5 ∈ list_findings storeFindings "t1" (some 4) :=
  ((list_findings_sorted_exclusive storeFindings "t1" (some 4)).2 findingAt5).mpr
    ⟨by decide, by decide, by decide⟩

/-- C9.  `claim_task` never checks a lower bound on `ttl_minutes`: on an open
task with no conflicting live claim, a request with `ttl_minutes ≤ 0` (and a
non-negative ceiling) succeeds and grants `expires_at = now + ttl_minutes ≤
now` — a claim can be expired at the moment it is granted. -/
theorem claim_nonpositive_ttl_grants_expired_lease (cfg : CoordinationConfig)
    (s : Store) (now : Int) (tid asp agent : String) (ttl : Int)
    (hu : KeyUnique s.claims) (htu : TasksUnique s.tasks)
    (httl : ttl ≤ 0) (hmax : 0 ≤ cfg.claim_max_ttl_minutes)
    (t : TaskRow) (ht : t ∈ s.tasks) (hid : t.id = tid) (hopen : t.status = "open")
    (hnc : ∀ c ∈ s.claims, c.task_id = tid → c.aspect = asp →
      c.expires_at ≤ now ∨ c.agent = agent) :
    (claim_task cfg s now tid asp agent ttl).1 = (true, some (now + ttl))
    ∧ now + ttl ≤ now := by
  have hmin : min ttl cfg.claim_max_ttl_minutes = ttl := min_eq_left (httl.trans hmax)
  refine ⟨?_, by omega⟩
  unfold claim_task
  rw [find_task_of_mem htu ht hid]
  split
  · rename_i heq
    exact Option.noConfusion heq
  · rename_i task heq
    injection heq with heq
    subst heq
    rw [if_neg (fun hh : t.status ≠ "open" => hh hopen)]
    rcases hfind : s.claims.find? (claimKey tid asp) with _ | c
    · simp [hmin]
    · have hpc := List.find?_some hfind
      have hcm := List.mem_of_find?_eq_some hfind
      simp only [claimKey, decide_eq_true_eq] at hpc
      split
      · rename_i existing heq2
        injection heq2 with heq2
        subst heq2
        by_cases hl : c.expires_at > now
        · have hag : c.agent = agent := by
            rcases hnc c hcm hpc.1 hpc.2 with hexp | hag
            · exact absurd hl (not_lt.mpr hexp)
            · exact hag
          rw [if_pos hl, if_pos hag]
          simp [hmin]
        · rw [if_neg hl]
          simp [hmin]
      · rename_i heq2
        exact Option.noConfusion heq2

/-- C9 witness: a claim with `ttl_minutes = -5` on an open unclaimed task is
granted with `expires_at = -5 ≤ now = 0`. -/
theorem claim_nonpositive_ttl_witness :
    (claim_task cfg0 storeNoClaims 0 "t1" "research" "A" (-5)).1 =
      (true, some (0 + (-5)))
    ∧ (0 : Int) + (-5) ≤ 0 :=
  claim_nonpositive_ttl_grants_expired_lease cfg0 storeNoClaims 0 "t1" "research" "A"
    (-5) (by decide) (by decide) (by decide) (by decide) taskOpen (by decide) rfl rfl
    (by intro c hc; cases hc)

/-- C10 counterexample: the empty-string task id does not exist in the store,
yet `get_task_status` with `task_id = ""` returns the open task `t1` instead of
an empty list — Python's `if task_id:` treats `""` like an omitted argument. -/
theorem missing_task_empty_counterexample :
    get_task_status storeLive 0 (some "") ≠ []
    ∧ ∀ t ∈ storeLive.tasks, t.id ≠ "" := by
  decide

/-- C10 (amended).  For a non-empty task id absent from the store,
`get_task_status` returns the empty list — indistinguishable from an empty
result, with no error; when `task_id` is omitted (or empty), exactly the tasks
with status `open` are returned. -/
theorem get_task_status_spec (s : Store) (now : Int) (tid : String)
    (hne : tid ≠ "") (hmiss : ∀ t ∈ s.tasks, t.id ≠ tid) :
    get_task_status s now (some tid) = []
    ∧ (∀ ts ∈ get_task_status s now none, ts.status = "open")
    ∧ (∀ t ∈ s.tasks, t.status = "open" →
        ∃ ts ∈ get_task_status s now none, ts.id = t.id) := by
  refine ⟨?_, ?_, ?_⟩
  · have hf : s.tasks.filter (fun t => decide (t.id = tid)) = [] :=
      List.filter_eq_nil_iff.mpr (fun a ha => by simpa using hmiss a ha)
    simp [get_task_status, if_neg hne, hf]
  · intro ts hts
    simp only [get_task_status, List.mem_map, List.mem_filter,
      decide_eq_true_eq] at hts
    obtain ⟨t, ⟨htm, hto⟩, rfl⟩ := hts
    exact hto
  · intro t htm hto
    simp only [get_task_status]
    exact ⟨_, List.mem_map_of_mem _ (List.mem_filter.mpr ⟨htm, by simp [hto]⟩), rfl⟩

/-- C10 witness: a fresh non-empty id yields the empty list on the concrete
store. -/
theorem get_task_status_spec_witness :
    get_task_status storeLive 0 (some "nope") = [] :=
  (get_task_status_spec storeLive 0 "nope" (by decide) (by decide)).1

end Lithos
